import Mathlib

/-!
Verification development for the fair purchase-intent ticketing core.

The definitions below are a shallow embedding of the TypeScript source:

* `EventR`, `TicketR`, `IntentR`, `DB`       — the persisted data model
  (entities `Event`, `Ticket`, `PurchaseIntent` and the three tables);
* `purchaseTickets`                          — `EventRepository.purchaseTickets`
  (the transactional inventory allocator);
* `intake`                                   — `TicketService.purchaseTickets`
  together with `EventService.checkEventAvailability`;
* `cancelPurchaseIntent`                     — `TicketService.cancelPurchaseIntent`;
* `markIntentAsProcessing`, `updateIntentStatus`, `cleanupExpiredIntents`,
  `getNextIntentsToProcess`, `getIntentBySessionAndEvent`
                                             — `PurchaseIntentRepository`;
* `processIntent`, `attemptLoop`             — `QueueService.processIntent`
  and its retry loop, with `Stats` for the processor health counters;
* `parStep`, `runPar`                        — the interleaved execution of two
  concurrently launched `processIntent` calls, as `QueueService.processEventQueue`
  starts them via `Promise.all`.

Database rows are modelled as lists (multisets of rows); every repository
method that is a single SQL statement or a single transaction is one atomic
state transformer.  Timestamps are integers: wall-clock milliseconds for
`Date.now()` readings, microseconds for `request_timestamp`.
-/

/-- The `PurchaseIntentStatus` enum of `purchase-intent.entity.ts`. -/
inductive IntentStatus where
  | waiting
  | processing
  | completed
  | failed
  | expired
deriving DecidableEq, Repr

/-- `PurchaseIntent.isActive()`: status is WAITING or PROCESSING. -/
def IntentStatus.isActiveB : IntentStatus → Bool
  | .waiting => true
  | .processing => true
  | _ => false

/-- Row of the `events` table (`Event` entity). `date` is an absolute instant
(milliseconds); `available_tickets`/`total_tickets` are integer columns. -/
structure EventR where
  name : String
  date : Int
  total_tickets : Int
  available_tickets : Int
  version : Nat
deriving DecidableEq, Repr

/-- Row of the `tickets` table (`Ticket` entity); the generated primary key is
irrelevant to the stated properties and omitted, rows are kept as a multiset. -/
structure TicketR where
  event_id : Nat
  purchase_id : Nat
deriving DecidableEq, Repr

/-- Row of the `purchase_intents` table (`PurchaseIntent` entity).
`request_timestamp` is the microsecond arrival ordinal (a `bigint` column). -/
structure IntentR where
  iid : Nat
  event_id : Nat
  user_session_id : String
  requested_quantity : Nat
  request_timestamp : Nat
  status : IntentStatus
deriving DecidableEq, Repr

/-- The persistent state: the three tables. `events` is an association list
keyed by event id. -/
structure DB where
  events : List (Nat × EventR)
  tickets : List TicketR
  intents : List IntentR
deriving DecidableEq, Repr

def emptyDB : DB := ⟨[], [], []⟩

/-- `EventRepository.findById` (a keyed SELECT). -/
def lookupEvent (db : DB) (eid : Nat) : Option EventR :=
  (db.events.find? (fun p => p.1 == eid)).map Prod.snd

/-- `PurchaseIntentRepository.findById`. -/
def lookupIntent (db : DB) (iid : Nat) : Option IntentR :=
  db.intents.find? (fun i => i.iid == iid)

def statusOf (db : DB) (iid : Nat) : Option IntentStatus :=
  (lookupIntent db iid).map IntentR.status

/-- Number of ticket rows for an event (`tickets_issued`). -/
def countEvL (ts : List TicketR) (eid : Nat) : Nat :=
  (ts.filter (fun t => t.event_id == eid)).length

/-- Number of ticket rows whose `purchase_id` is `pid`. -/
def countPidL (ts : List TicketR) (pid : Nat) : Nat :=
  (ts.filter (fun t => t.purchase_id == pid)).length

def ticketCountEvent (db : DB) (eid : Nat) : Nat := countEvL db.tickets eid

def countPid (db : DB) (pid : Nat) : Nat := countPidL db.tickets pid

/-! ## Entity business-logic methods -/

/-- `Event.hasAvailableTickets(quantity)`. -/
def hasAvailableTickets (e : EventR) (q : Nat) : Bool :=
  (q : Int) ≤ e.available_tickets

/-- `PurchaseIntent.generateTimestamp()`: `Date.now() * 1000`, i.e. the
wall-clock millisecond reading converted to microseconds.  `nowMs` is the
value of `Date.now()` at the moment of the call. -/
def generateTimestamp (nowMs : Nat) : Nat := nowMs * 1000

/-- `PurchaseIntent.shouldExpire(maxAgeMinutes)`: age (computed from the
microsecond `request_timestamp`) exceeds the bound and the (in-memory) status
is WAITING. -/
def shouldExpire (i : IntentR) (nowMs : Int) (maxAgeMinutes : Nat) : Bool :=
  decide ((nowMs - (i.request_timestamp : Int) / 1000) > (maxAgeMinutes : Int) * 60 * 1000)
    && (i.status == .waiting)

/-! ## QueueService configuration constants -/

def MAX_CONCURRENT_PROCESSING : Nat := 5
def INTENT_EXPIRY_MINUTES : Nat := 30
def MAX_RETRY_ATTEMPTS : Nat := 3

/-! ## PurchaseIntentRepository -/

/-- Row transformer of the `updateIntentStatus` UPDATE (keyed on `id` alone). -/
def setStatusRow (iid : Nat) (st : IntentStatus) (i : IntentR) : IntentR :=
  if i.iid == iid then { i with status := st } else i

/-- `updateIntentStatus`: UPDATE keyed on `id` alone, sets `status`;
returns whether any row was affected. -/
def updateIntentStatus (db : DB) (iid : Nat) (st : IntentStatus) : DB × Bool :=
  ({ db with intents := db.intents.map (setStatusRow iid st) },
   db.intents.any (fun i => i.iid == iid))

/-- Row transformer of the `markIntentAsProcessing` conditional UPDATE. -/
def claimRow (iid : Nat) (i : IntentR) : IntentR :=
  if i.iid == iid && i.status == .waiting then { i with status := .processing } else i

/-- `markIntentAsProcessing`: conditional UPDATE keyed on `(id, status=WAITING)`,
sets `status := PROCESSING`; returns whether any row was affected. -/
def markIntentAsProcessing (db : DB) (iid : Nat) : DB × Bool :=
  ({ db with intents := db.intents.map (claimRow iid) },
   db.intents.any (fun i => i.iid == iid && i.status == .waiting))

/-- Row transformer of the expiry sweep's bulk UPDATE. -/
def sweepRow (cutoffTs : Nat) (i : IntentR) : IntentR :=
  if i.status == .waiting && i.request_timestamp < cutoffTs then { i with status := .expired } else i

/-- `cleanupExpiredIntents`: bulk UPDATE WAITING → EXPIRED for rows with
`request_timestamp` (microseconds) below the cutoff. -/
def cleanupExpiredIntents (db : DB) (cutoffTs : Nat) : DB :=
  { db with intents := db.intents.map (sweepRow cutoffTs) }

/-- `getIntentBySessionAndEvent`: first active (WAITING/PROCESSING) intent for
`(user_session_id, event_id)`. -/
def getIntentBySessionAndEvent (db : DB) (sid : String) (eid : Nat) : Option IntentR :=
  db.intents.find? (fun i => i.user_session_id == sid && i.event_id == eid && i.status.isActiveB)

/-- Insertion by ascending `request_timestamp` (the `ORDER BY request_timestamp ASC`). -/
def insertByTs (x : IntentR) : List IntentR → List IntentR
  | [] => [x]
  | y :: ys => if x.request_timestamp ≤ y.request_timestamp then x :: y :: ys else y :: insertByTs x ys

def sortByTs : List IntentR → List IntentR
  | [] => []
  | x :: xs => insertByTs x (sortByTs xs)

/-- `getNextIntentsToProcess`: WAITING intents of the event in arrival order,
limited to `limit` rows. -/
def getNextIntentsToProcess (db : DB) (eid : Nat) (limit : Nat) : List IntentR :=
  (sortByTs (db.intents.filter (fun i => i.event_id == eid && i.status == .waiting))).take limit

/-! ## EventRepository.purchaseTickets — the inventory allocator -/

/-- Outcome of `EventRepository.purchaseTickets`.  `conflict` is the branch in
which the version-guarded UPDATE affected zero rows; in the source it is
reported to the caller as an ordinary `{success: false}` result. -/
inductive PurchaseOutcome where
  | notFoundP
  | insufficient (available : Int)
  | conflict
  | purchased (count : Nat)
deriving DecidableEq, Repr

def PurchaseOutcome.isSuccess : PurchaseOutcome → Bool
  | .purchased _ => true
  | _ => false

/-- Replace the event row keyed `eid` (the guarded UPDATE's write). -/
def updateEventRow (l : List (Nat × EventR)) (eid : Nat) (e' : EventR) : List (Nat × EventR) :=
  l.map (fun p => if p.1 == eid then (eid, e') else p)

/-- `EventRepository.purchaseTickets(eventId, quantity, purchaseId)`.

The whole body is one database transaction holding a pessimistic write lock on
the event row, so it is one atomic state transformer.  Its steps, in source
order: look the event up (`FOR UPDATE`); if absent, roll back; if
`available_tickets < quantity`, roll back with the insufficiency message;
perform the version-guarded decrement — `raced` is true in the runs where that
guard sees a concurrent version change and affects zero rows, upon which the
transaction rolls back with the retry message; otherwise insert exactly
`quantity` ticket rows carrying `purchase_id` and commit.  The source performs
no check of the event's date. -/
def purchaseTickets (db : DB) (eid : Nat) (q : Nat) (pid : Nat) (raced : Bool) :
    DB × PurchaseOutcome :=
  match lookupEvent db eid with
  | none => (db, .notFoundP)
  | some e =>
    if e.available_tickets < (q : Int) then (db, .insufficient e.available_tickets)
    else if raced then (db, .conflict)
    else
      ({ db with
          events := updateEventRow db.events eid
            { e with available_tickets := e.available_tickets - q, version := e.version + 1 },
          tickets := db.tickets ++ List.replicate q ⟨eid, pid⟩ },
        .purchased q)

/-! ## EventService / TicketService intake -/

/-- `EventService.checkEventAvailability`: available iff the event has at least
`quantity` tickets left and its date is strictly in the future. -/
def checkEventAvailability (db : DB) (eid : Nat) (q : Nat) (now : Int) : Bool × Option EventR :=
  match lookupEvent db eid with
  | none => (false, none)
  | some e => (hasAvailableTickets e q && now < e.date, some e)

inductive IntakeOutcome where
  | notFoundI
  | unavailable
  | existing (iid : Nat)
  | created (iid : Nat)
  | intakeError
deriving DecidableEq, Repr

/-- `TicketService.purchaseTickets` (the queue-based intake), after DTO
validation: availability fast path, then idempotent admission for the session,
then insertion of a fresh WAITING intent stamped with `generateTimestamp`.
`newId` is the UUID the database generates for the new row; the primary-key
constraint makes a clashing insert fail (`intakeError`, caught by the service
with no state change). -/
def intake (db : DB) (eid : Nat) (sid : String) (q : Nat) (now : Int) (newId : Nat) (ts : Nat) :
    DB × IntakeOutcome :=
  match checkEventAvailability db eid q now with
  | (_, none) => (db, .notFoundI)
  | (avail, some _) =>
    if !avail then (db, .unavailable)
    else
      match getIntentBySessionAndEvent db sid eid with
      | some ex => (db, .existing ex.iid)
      | none =>
        if db.intents.any (fun i => i.iid == newId) then (db, .intakeError)
        else ({ db with intents := db.intents ++ [⟨newId, eid, sid, q, ts, .waiting⟩] },
              .created newId)

/-! ## TicketService.cancelPurchaseIntent -/

inductive CancelOutcome where
  | notFoundC
  | forbiddenC
  | notCancellable (st : IntentStatus)
  | cancelled
  | cancelFailed
deriving DecidableEq, Repr

/-- `TicketService.cancelPurchaseIntent(intentId, userSessionId)`: look the
intent up; reject if absent or owned by another session; if the intent is not
active (terminal status) report it non-cancellable; otherwise call
`updateIntentStatus(intentId, EXPIRED)` — which is keyed on `id` alone. -/
def cancelPurchaseIntent (db : DB) (iid : Nat) (sid : String) : DB × CancelOutcome :=
  match lookupIntent db iid with
  | none => (db, .notFoundC)
  | some intent =>
    if intent.user_session_id ≠ sid then (db, .forbiddenC)
    else if !intent.status.isActiveB then (db, .notCancellable intent.status)
    else
      let r := updateIntentStatus db iid .expired
      if r.2 then (r.1, .cancelled) else (r.1, .cancelFailed)

/-! ## QueueService.processIntent -/

/-- Behaviour of the environment during one allocator attempt inside
`processIntent`'s retry loop: `normal raced` means the transaction ran and its
result was observed (with `raced` deciding the version-guard branch); `thrown`
means the attempt raised with no database effect — the infrastructure failed
before the transaction committed; `thrownLate raced` means the attempt's
`Promise.race` rejected (the processing timeout fired) while the in-flight
allocator transaction still ran to completion on its own, so its database
effects persist although `processIntent` observes only the throw.
`Promise.race` does not cancel the losing promise, so such runs are real. -/
inductive AttemptEnv where
  | normal (raced : Bool)
  | thrown
  | thrownLate (raced : Bool)
deriving DecidableEq, Repr

/-- How the retry loop ended. -/
inductive LoopEnd where
  | doneOk
  | bizFailed
  | exhausted
deriving DecidableEq, Repr

/-- In-memory processor health counters (`processingStats`). -/
structure Stats where
  totalProcessed : Nat
  totalFailed : Nat
deriving DecidableEq, Repr

/-- `updateProcessingStats(success, _)` restricted to the counters. -/
def updateProcessingStats (s : Stats) (success : Bool) : Stats :=
  if success then { s with totalProcessed := s.totalProcessed + 1 }
  else { s with totalFailed := s.totalFailed + 1 }

/-- The `while (attempts < MAX_RETRY_ATTEMPTS)` loop of `processIntent`.
`fuel` is `MAX_RETRY_ATTEMPTS - attempts` (the loop guard), `attempts` the
attempts already made, `envs n` the behaviour of attempt number `n`.
Returns the database, how the loop ended, the backoff delays slept (seconds,
in order) and the number of attempts made.  A successful result exits with
`doneOk`; an unsuccessful result (insufficient tickets, conflict, missing
event) exits immediately with `bizFailed`; a thrown attempt sleeps
`2^attempts` seconds if the budget allows and retries.  In a `thrownLate`
attempt the transaction's effects are applied before the throw is observed:
the timeout does not cancel the in-flight transaction, so a committed
allocation survives into the retry. -/
def attemptLoop (eid q pid : Nat) (envs : Nat → AttemptEnv) :
    Nat → Nat → DB → DB × LoopEnd × List Nat × Nat
  | 0, attempts, db => (db, .exhausted, [], attempts)
  | fuel + 1, attempts, db =>
    let attempt := attempts + 1
    match envs attempt with
    | .normal raced =>
      let r := purchaseTickets db eid q pid raced
      if r.2.isSuccess then (r.1, .doneOk, [], attempt)
      else (r.1, .bizFailed, [], attempt)
    | .thrown =>
      if attempt < MAX_RETRY_ATTEMPTS then
        let r := attemptLoop eid q pid envs fuel attempt db
        (r.1, r.2.1, 2 ^ attempt :: r.2.2.1, r.2.2.2)
      else (db, .exhausted, [], attempt)
    | .thrownLate raced =>
      let r := purchaseTickets db eid q pid raced
      if attempt < MAX_RETRY_ATTEMPTS then
        let s := attemptLoop eid q pid envs fuel attempt r.1
        (s.1, s.2.1, 2 ^ attempt :: s.2.2.1, s.2.2.2)
      else (r.1, .exhausted, [], attempt)

/-- Result of one `processIntent` call. -/
structure ProcOut where
  db : DB
  stats : Stats
  delays : List Nat
  attempts : Nat
deriving DecidableEq, Repr

/-- `QueueService.processIntent(intent)` for the snapshot `intent`:
atomically claim WAITING → PROCESSING (skip if the claim affects no row);
transition to EXPIRED if the snapshot is stale; otherwise run the retry loop
and record the terminal transition.  Statistics: a success increments
`totalProcessed`; an exhausted retry budget increments `totalFailed`; an
unsuccessful business result updates no counter. -/
def processIntent (db : DB) (stats : Stats) (intent : IntentR) (nowMs : Int)
    (envs : Nat → AttemptEnv) : ProcOut :=
  let m := markIntentAsProcessing db intent.iid
  if !m.2 then ⟨m.1, stats, [], 0⟩
  else if shouldExpire intent nowMs INTENT_EXPIRY_MINUTES then
    ⟨(updateIntentStatus m.1 intent.iid .expired).1, stats, [], 0⟩
  else
    let r := attemptLoop intent.event_id intent.requested_quantity intent.iid envs
      MAX_RETRY_ATTEMPTS 0 m.1
    match r.2.1 with
    | .doneOk =>
      ⟨(updateIntentStatus r.1 intent.iid .completed).1,
        updateProcessingStats stats true, r.2.2.1, r.2.2.2⟩
    | .bizFailed =>
      ⟨(updateIntentStatus r.1 intent.iid .failed).1, stats, r.2.2.1, r.2.2.2⟩
    | .exhausted =>
      ⟨(updateIntentStatus r.1 intent.iid .failed).1,
        updateProcessingStats stats false, r.2.2.1, r.2.2.2⟩

/-! ## Sequential operation alphabet

The mutating entry points of the core (spec §9 scopes the legacy
direct-allocation endpoint out), each run to completion without interleaving;
traces of these give the sequential reachable states. -/

inductive Op where
  | createEvent (eid : Nat) (nm : String) (date : Int) (total : Int) (now : Int)
  | intakeOp (eid : Nat) (sid : String) (q : Nat) (now : Int) (newId : Nat) (ts : Nat)
  | processOp (iid : Nat) (nowMs : Int) (envs : Nat → AttemptEnv)
  | cancelOp (iid : Nat) (sid : String)
  | sweepOp (cutoffTs : Nat)

/-- One operation, applied atomically.  `createEvent` mirrors
`EventService.createEvent` (future-date validation, `available := total`,
`version := 1`) plus the primary-key and `total_tickets >= 0` database
constraints — a violating insert throws and leaves no state. -/
def applyOp (db : DB) : Op → DB
  | .createEvent eid nm date total now =>
    if date ≤ now ∨ total < 0 ∨ db.events.any (fun p => p.1 == eid) then db
    else { db with events := db.events ++ [(eid, ⟨nm, date, total, total, 1⟩)] }
  | .intakeOp eid sid q now newId ts =>
    if q < 1 ∨ 10 < q ∨ sid.length < 1 ∨ 255 < sid.length then db
    else (intake db eid sid q now newId ts).1
  | .processOp iid nowMs envs =>
    match lookupIntent db iid with
    | none => db
    | some i0 => (processIntent db ⟨0, 0⟩ i0 nowMs envs).db
  | .cancelOp iid sid => (cancelPurchaseIntent db iid sid).1
  | .sweepOp cutoffTs => cleanupExpiredIntents db cutoffTs

def applyOps (db : DB) (ops : List Op) : DB := ops.foldl applyOp db

/-! ## Interleaved execution of a processed batch

`QueueService.processEventQueue` launches `processIntent` for every intent of
the batch at once (`Promise.all` over `intents.map`).  Each `processIntent`
is the sequence of atomic database operations separated by its `await`
points: the claim; the expiry check followed by the allocation transaction;
the final status write.  A schedule interleaves the steps of the two tasks. -/

structure ParTask where
  intent : IntentR
  pc : Nat
  allocOk : Bool
deriving DecidableEq, Repr

/-- One await-delimited step of a `processIntent` task. -/
def parStep (nowMs : Int) (db : DB) (t : ParTask) : DB × ParTask :=
  match t.pc with
  | 0 =>
    let m := markIntentAsProcessing db t.intent.iid
    if !m.2 then (m.1, { t with pc := 3 }) else (m.1, { t with pc := 1 })
  | 1 =>
    if shouldExpire t.intent nowMs INTENT_EXPIRY_MINUTES then
      ((updateIntentStatus db t.intent.iid .expired).1, { t with pc := 3 })
    else
      let r := purchaseTickets db t.intent.event_id t.intent.requested_quantity t.intent.iid false
      (r.1, { t with pc := 2, allocOk := r.2.isSuccess })
  | 2 =>
    if t.allocOk then ((updateIntentStatus db t.intent.iid .completed).1, { t with pc := 3 })
    else ((updateIntentStatus db t.intent.iid .failed).1, { t with pc := 3 })
  | _ => (db, t)

/-- Run a schedule over the two concurrently launched tasks:
`false` advances the first task one step, `true` the second. -/
def runPar (nowMs : Int) : DB × ParTask × ParTask → List Bool → DB × ParTask × ParTask
  | s, [] => s
  | (db, ta, tb), pick :: rest =>
    if pick then
      let r := parStep nowMs db tb
      runPar nowMs (r.1, ta, r.2) rest
    else
      let r := parStep nowMs db ta
      runPar nowMs (r.1, r.2, tb) rest

example : generateTimestamp 3 = 3000 := by decide

example :
    (purchaseTickets ⟨[(1, ⟨"E", 100, 3, 3, 1⟩)], [], []⟩ 1 2 7 false).2 = .purchased 2 := by
  decide

/-! ## Concrete fixtures used by counterexamples and witnesses -/

/-- An event far in the future with 3 tickets. -/
def evThree : EventR := ⟨"E", 1000000000000000, 3, 3, 1⟩

/-- Earlier-arriving intent (arrival ordinal 100000 µs) asking for 2 tickets. -/
def intentA : IntentR := ⟨1, 1, "sa", 2, 100000, .waiting⟩

/-- Later-arriving intent (arrival ordinal 200000 µs) asking for 2 tickets. -/
def intentB : IntentR := ⟨2, 1, "sb", 2, 200000, .waiting⟩

/-- Queue state: one event, two waiting intents, no tickets. -/
def dbPair : DB := ⟨[(1, evThree)], [], [intentA, intentB]⟩

/-- The schedule that runs all three steps of the second task first — one of
the interleavings of `Promise.all([processIntent(A), processIntent(B)])`. -/
def schedBFirst : List Bool := [true, true, true]

/-- The same schedule continued with the first task's three steps. -/
def schedBThenA : List Bool := [true, true, true, false, false, false]

def runPairB : DB × ParTask × ParTask :=
  runPar 500 (dbPair, ⟨intentA, 0, false⟩, ⟨intentB, 0, false⟩) schedBFirst

def runPairBA : DB × ParTask × ParTask :=
  runPar 500 (dbPair, ⟨intentA, 0, false⟩, ⟨intentB, 0, false⟩) schedBThenA

/-- A past event (`date = -5`) holding plenty of inventory. -/
def dbPast : DB := ⟨[(1, ⟨"E", -5, 10, 10, 1⟩)], [], []⟩

/-- An event with 1 ticket left out of 5, dated in the future. -/
def dbOneLeft : DB := ⟨[(1, ⟨"E", 1000, 5, 1, 1⟩)], [], []⟩

/-- A lone PROCESSING intent owned by session `s`. -/
def dbProcessing : DB := ⟨[], [], [⟨1, 1, "s", 1, 100, .processing⟩]⟩

/-- A waiting intent with ample inventory, used for the retry counterexample. -/
def dbRetry : DB := ⟨[(1, ⟨"E", 1000000, 5, 5, 1⟩)], [], [⟨1, 1, "s", 2, 100000, .waiting⟩]⟩

/-- Attempt environment: the version guard races on the first attempt
(CONFLICT); any further attempt would run cleanly and succeed. -/
def envsConflictThenOk : Nat → AttemptEnv := fun n => if n == 1 then .normal true else .normal false

/-- Attempt environment: every attempt runs the transaction cleanly. -/
def envsOk : Nat → AttemptEnv := fun _ => .normal false

/-- Attempt environment: every attempt throws (transient failure). -/
def envsThrow : Nat → AttemptEnv := fun _ => .thrown

/-! ## The global invariant over sequentially reachable states -/

/-- Is the intent row active for the given session/event pair. -/
def activeFor (sid : String) (eid : Nat) (i : IntentR) : Bool :=
  i.user_session_id == sid && i.event_id == eid && i.status.isActiveB

/-- No two of these rows are both active for the same `(session, event)`. -/
def NoTwoActive (a b : IntentR) : Prop :=
  ¬(a.user_session_id = b.user_session_id ∧ a.event_id = b.event_id ∧
    a.status.isActiveB = true ∧ b.status.isActiveB = true)

/-- The data invariants maintained by the core: unique event keys and intent
ids (primary keys), inventory conservation and non-negativity, every ticket
row referencing an existing event, and at most one active intent per
`(session, event)`.  An exactly-`quantity` ticket contract for COMPLETED
intents is deliberately absent: a timed-out attempt whose transaction commits
is retried and can allocate a second time for the same intent. -/
structure DBInv (db : DB) : Prop where
  evKeys : (db.events.map Prod.fst).Nodup
  iids : (db.intents.map IntentR.iid).Nodup
  conserve : ∀ p ∈ db.events, (ticketCountEvent db p.1 : Int) + p.2.available_tickets = p.2.total_tickets
  nonneg : ∀ p ∈ db.events, 0 ≤ p.2.available_tickets
  ticketEventKey : ∀ t ∈ db.tickets, t.event_id ∈ db.events.map Prod.fst
  uniqueActive : db.intents.Pairwise NoTwoActive

/-- Further fixtures. -/
def retryIntent : IntentR := ⟨1, 1, "s", 2, 100000, .waiting⟩

def procConflict : ProcOut := processIntent dbRetry ⟨0, 0⟩ retryIntent 500 envsConflictThenOk

def procThrow : ProcOut := processIntent dbRetry ⟨0, 0⟩ retryIntent 500 envsThrow

/-- One ticket left, two requested: the allocator reports insufficiency. -/
def dbShort : DB := ⟨[(1, ⟨"E", 1000000, 5, 1, 1⟩)], [], [retryIntent]⟩

def procBizFail : ProcOut := processIntent dbShort ⟨0, 0⟩ retryIntent 500 envsOk

def procOk : ProcOut := processIntent dbRetry ⟨0, 0⟩ retryIntent 500 envsOk

/-- A trace: create an event, admit one intent, process it successfully. -/
def opsHappy : List Op :=
  [.createEvent 1 "E" 1000000 5 0, .intakeOp 1 "s" 2 0 1 100000, .processOp 1 500 envsOk]

/-- A state holding one active intent of session `s` for event 1. -/
def dbActive : DB := ⟨[(1, ⟨"E", 1000000, 5, 5, 1⟩)], [], [⟨1, 1, "s", 2, 100000, .waiting⟩]⟩

/-- Attempt environment: the first attempt's allocator transaction runs to a
commit, but the processing timeout fires first and `processIntent` observes a
throw; the retried second attempt runs cleanly. -/
def envsLateThenOk : Nat → AttemptEnv :=
  fun n => if n == 1 then .thrownLate false else .normal false

/-- Trace: create an event with 5 tickets, admit an intent for 2 of them,
then process it under `envsLateThenOk`. -/
def opsDouble : List Op :=
  [.createEvent 1 "E" 1000000 5 0, .intakeOp 1 "s" 2 0 1 100000, .processOp 1 500 envsLateThenOk]

/-! ## Claim theorems: concurrency (C1) -/

/-- C1 (code bug): per-event fairness fails.  The processor's batch query
returns `[intentA, intentB]` in arrival order, but `processEventQueue` starts
`processIntent` for the whole batch at once; under the interleaving that lets
the second task run first, the later-arriving `intentB` reaches COMPLETED
while the earlier `intentA` is still non-terminal (WAITING), and in the
completed run `intentA` ends FAILED for lack of inventory that `intentB`
consumed — the completion sequence is not an arrival-order prefix. -/
theorem c1_parallel_batch_violates_arrival_order :
    getNextIntentsToProcess dbPair 1 MAX_CONCURRENT_PROCESSING = [intentA, intentB]
    ∧ intentA.request_timestamp < intentB.request_timestamp
    ∧ statusOf runPairB.1 intentB.iid = some .completed
    ∧ statusOf runPairB.1 intentA.iid = some .waiting
    ∧ statusOf runPairBA.1 intentA.iid = some .failed
    ∧ statusOf runPairBA.1 intentB.iid = some .completed := by
  decide

/-! ## Claim theorems: retry policy (C4) -/

/-- C4 (counterexample): on a version-guard CONFLICT at the first attempt the
processor does not retry — one attempt, no backoff, intent FAILED — even
though the environment would have let every later attempt succeed. -/
theorem c4_conflict_failed_without_retry_counterexample :
    procConflict.attempts = 1 ∧ procConflict.delays = []
    ∧ statusOf procConflict.db 1 = some .failed
    ∧ (purchaseTickets (markIntentAsProcessing dbRetry 1).1 1 2 1 true).2 = .conflict := by
  decide

/-- C4 (amended): only a thrown attempt (transient infrastructure error or
processing timeout) is retried, with backoff `2^attempt` seconds and at most
`MAX_RETRY_ATTEMPTS` attempts, FAILED on exhaustion; any unsuccessful
allocator result — CONFLICT as much as INSUFFICIENT — ends the loop at once
with no retry, and `processIntent` then marks the intent FAILED after a
single attempt with no backoff. -/
theorem c4_retry_only_on_thrown :
    (∀ (eid q pid : Nat) (envs : Nat → AttemptEnv) (db : DB) (raced : Bool),
        envs 1 = .normal raced →
        (purchaseTickets db eid q pid raced).2.isSuccess = false →
        attemptLoop eid q pid envs MAX_RETRY_ATTEMPTS 0 db =
          ((purchaseTickets db eid q pid raced).1, .bizFailed, [], 1))
    ∧ (∀ (eid q pid : Nat) (envs : Nat → AttemptEnv) (db : DB),
        envs 1 = .thrown → envs 2 = .thrown → envs 3 = .thrown →
        attemptLoop eid q pid envs MAX_RETRY_ATTEMPTS 0 db = (db, .exhausted, [2, 4], 3))
    ∧ (∀ (db : DB) (stats : Stats) (i : IntentR) (nowMs : Int) (envs : Nat → AttemptEnv)
        (raced : Bool),
        (markIntentAsProcessing db i.iid).2 = true →
        shouldExpire i nowMs INTENT_EXPIRY_MINUTES = false →
        envs 1 = .normal raced →
        (purchaseTickets (markIntentAsProcessing db i.iid).1 i.event_id
            i.requested_quantity i.iid raced).2.isSuccess = false →
        (processIntent db stats i nowMs envs).db =
            (updateIntentStatus (purchaseTickets (markIntentAsProcessing db i.iid).1
              i.event_id i.requested_quantity i.iid raced).1 i.iid .failed).1
          ∧ (processIntent db stats i nowMs envs).attempts = 1
          ∧ (processIntent db stats i nowMs envs).delays = []) := by
  refine ⟨?_, ?_, ?_⟩
  · intro eid q pid envs db raced h1 hfail
    simp [MAX_RETRY_ATTEMPTS, attemptLoop, h1, hfail]
  · intro eid q pid envs db h1 h2 h3
    simp [MAX_RETRY_ATTEMPTS, attemptLoop, h1, h2, h3]
  · intro db stats i nowMs envs raced hm hexp h1 hfail
    have hl :
        attemptLoop i.event_id i.requested_quantity i.iid envs MAX_RETRY_ATTEMPTS 0
            (markIntentAsProcessing db i.iid).1 =
          ((purchaseTickets (markIntentAsProcessing db i.iid).1 i.event_id
              i.requested_quantity i.iid raced).1, .bizFailed, [], 1) := by
      simp [MAX_RETRY_ATTEMPTS, attemptLoop, h1, hfail]
    simp [processIntent, hm, hexp, hl]

/-- C4 witness: the amended behaviour evaluated at the conflict fixture. -/
theorem c4_retry_only_on_thrown_witness :
    attemptLoop 1 2 1 envsConflictThenOk MAX_RETRY_ATTEMPTS 0 dbRetry =
      ((purchaseTickets dbRetry 1 2 1 true).1, .bizFailed, [], 1) :=
  c4_retry_only_on_thrown.1 1 2 1 envsConflictThenOk dbRetry true (by decide) (by decide)

/-! ## Claim theorems: cancellation (C5) -/

/-- C5 (counterexample): cancelling a PROCESSING intent with the owning
session does not return NOT_CANCELLABLE with the status unchanged — the
conditional transition is keyed on `id` alone, the update affects the row,
the call reports success and the intent becomes EXPIRED. -/
theorem c5_processing_intent_cancelled_counterexample :
    statusOf dbProcessing 1 = some .processing
    ∧ (cancelPurchaseIntent dbProcessing 1 "s").2 = .cancelled
    ∧ statusOf (cancelPurchaseIntent dbProcessing 1 "s").1 1 = some .expired := by
  decide

/-- C5 (amended): for any non-terminal intent (WAITING or PROCESSING) whose
session matches, cancellation performs the unconditional UPDATE keyed on `id`
alone, reports success, and leaves the intent EXPIRED. -/
theorem c5_cancel_active_unconditional (db : DB) (iid : Nat) (sid : String) (i : IntentR)
    (h : lookupIntent db iid = some i) (hs : i.user_session_id = sid)
    (ha : i.status.isActiveB = true) :
    (cancelPurchaseIntent db iid sid).2 = .cancelled
    ∧ (cancelPurchaseIntent db iid sid).1 = (updateIntentStatus db iid .expired).1 := by
  have h' : List.find? (fun j => j.iid == iid) db.intents = some i := h
  have hmem : i ∈ db.intents := List.mem_of_find?_eq_some h'
  have hpred : (i.iid == iid) = true := by simpa using List.find?_some h'
  have hany : db.intents.any (fun j => j.iid == iid) = true :=
    List.any_eq_true.mpr ⟨i, hmem, hpred⟩
  simp [cancelPurchaseIntent, lookupIntent, h', hs, ha, updateIntentStatus, hany]

/-- C5 witness: the amended behaviour evaluated on the PROCESSING fixture. -/
theorem c5_cancel_active_unconditional_witness :
    (cancelPurchaseIntent dbProcessing 1 "s").2 = .cancelled
    ∧ (cancelPurchaseIntent dbProcessing 1 "s").1 = (updateIntentStatus dbProcessing 1 .expired).1 :=
  c5_cancel_active_unconditional dbProcessing 1 "s" ⟨1, 1, "s", 1, 100, .processing⟩
    (by decide) (by decide) (by decide)

/-! ## Claim theorems: allocator and the event date (C6) -/

/-- C6 (counterexample): allocating against an event whose date (-5) is in
the past succeeds and issues the tickets — the allocator aborts with no
EVENT_PAST reason and consults no clock at all. -/
theorem c6_allocator_ignores_event_date_counterexample :
    (lookupEvent dbPast 1).map EventR.date = some (-5)
    ∧ (purchaseTickets dbPast 1 2 7 false).2 = .purchased 2
    ∧ ticketCountEvent (purchaseTickets dbPast 1 2 7 false).1 1 = 2 := by
  decide

/-- C6 (amended): the allocator performs no date check: whenever the event
exists with sufficient inventory and the version guard does not race, the
allocation succeeds — whatever the event's `date`. -/
theorem c6_allocation_succeeds_regardless_of_date (db : DB) (eid q pid : Nat) (e : EventR)
    (h : lookupEvent db eid = some e) (hq : (q : Int) ≤ e.available_tickets) :
    (purchaseTickets db eid q pid false).2 = .purchased q := by
  simp [purchaseTickets, h, not_lt.mpr hq]

/-- C6 witness: the amended behaviour evaluated on the past-dated fixture. -/
theorem c6_allocation_succeeds_regardless_of_date_witness :
    (purchaseTickets dbPast 1 2 7 false).2 = .purchased 2 :=
  c6_allocation_succeeds_regardless_of_date dbPast 1 2 7 ⟨"E", -5, 10, 10, 1⟩
    (by decide) (by decide)

/-! ## Claim theorems: the arrival ordinal (C7) -/

/-- C7 (counterexample): `generateTimestamp` is a pure function of the wall
clock: two calls within the same millisecond return equal — not strictly
increasing — ordinals, and a call after the clock regressed from 10 ms to
9 ms returns a smaller ordinal than its predecessor. -/
theorem c7_timestamp_not_strictly_increasing :
    ¬ generateTimestamp 1000 < generateTimestamp 1000
    ∧ generateTimestamp 9 < generateTimestamp 10 := by
  decide

/-- C7 (amended): the arrival ordinal is the `Date.now()` millisecond reading
scaled to microseconds, so it increases strictly across two calls exactly
when the wall-clock readings do — it collides within a millisecond and
regresses whenever the clock does. -/
theorem c7_timestamp_monotone_iff_clock (t1 t2 : Nat) :
    generateTimestamp t1 < generateTimestamp t2 ↔ t1 < t2 := by
  simp [generateTimestamp]

/-! ## Claim theorems: intake availability (C8) -/

/-- C8 (counterexample): an event with one ticket left (strictly positive)
and a future date rejects a request for three tickets with UNAVAILABLE and
admits nothing to the queue — the claim expected admission whenever
`available_tickets` is positive and the event is not past. -/
theorem c8_partial_availability_rejected_counterexample :
    (lookupEvent dbOneLeft 1).map EventR.available_tickets = some 1
    ∧ (intake dbOneLeft 1 "s" 3 0 11 100).2 = .unavailable
    ∧ (intake dbOneLeft 1 "s" 3 0 11 100).1 = dbOneLeft := by
  decide

/-- C8 (amended): for an existing event, intake rejects with UNAVAILABLE
exactly when the event's date is not in the future or `available_tickets`
is smaller than the requested quantity (the fast path compares against the
quantity, not against zero). -/
theorem c8_unavailable_iff (db : DB) (eid : Nat) (sid : String) (q : Nat) (now : Int)
    (newId ts : Nat) (e : EventR) (h : lookupEvent db eid = some e) :
    (intake db eid sid q now newId ts).2 = .unavailable ↔
      (e.date ≤ now ∨ e.available_tickets < (q : Int)) := by
  simp only [intake, checkEventAvailability, h]
  by_cases hav : (hasAvailableTickets e q && decide (now < e.date)) = true
  · have h1 : (q : Int) ≤ e.available_tickets := by
      have := (Bool.and_eq_true _ _).mp hav
      simpa [hasAvailableTickets] using this.1
    have h2 : now < e.date := by
      have := (Bool.and_eq_true _ _).mp hav
      simpa using this.2
    rcases hx : getIntentBySessionAndEvent db sid eid with _ | ex
    · simp only [hav, Bool.not_true, hx]
      constructor
      · intro hcon
        by_cases hpk : db.intents.any (fun i => i.iid == newId) = true <;> simp [hpk] at hcon
      · intro hcon; omega
    · simp only [hav, Bool.not_true, hx]
      constructor
      · intro hcon; simp at hcon
      · intro hcon; omega
  · have hav' : (hasAvailableTickets e q && decide (now < e.date)) = false := by
      simpa using hav
    simp only [hav', Bool.not_false, if_true]
    constructor
    · intro _
      have := Bool.and_eq_false_iff.mp hav'
      rcases this with h1 | h2
      · right
        have : ¬ ((q : Int) ≤ e.available_tickets) := by
          simpa [hasAvailableTickets] using h1
        omega
      · left
        have : ¬ (now < e.date) := by simpa using h2
        omega
    · intro _; trivial

/-- C8 witness: the amended characterisation evaluated on the fixture with
one remaining ticket. -/
theorem c8_unavailable_iff_witness :
    (intake dbOneLeft 1 "s" 3 0 11 100).2 = .unavailable :=
  (c8_unavailable_iff dbOneLeft 1 "s" 3 0 11 100 ⟨"E", 1000, 5, 1, 1⟩ (by decide)).mpr
    (by decide)

/-! ## Claim theorems: processor statistics (C10) -/

/-- C10: when the allocator returns an unsuccessful business result the
intent is marked FAILED but neither health counter moves; `totalProcessed`
is incremented exactly on the success path and `totalFailed` exactly when the
retry budget is exhausted — so the counters undercount the intents the
processor drove to a terminal state, as the concrete run `procBizFail` shows
(intent FAILED, both counters still zero). -/
theorem c10_stats_skip_business_failures :
    (∀ (db : DB) (stats : Stats) (i : IntentR) (nowMs : Int) (envs : Nat → AttemptEnv)
        (raced : Bool),
        (markIntentAsProcessing db i.iid).2 = true →
        shouldExpire i nowMs INTENT_EXPIRY_MINUTES = false →
        envs 1 = .normal raced →
        (purchaseTickets (markIntentAsProcessing db i.iid).1 i.event_id
            i.requested_quantity i.iid raced).2.isSuccess = false →
        (processIntent db stats i nowMs envs).stats = stats)
    ∧ (∀ (db : DB) (stats : Stats) (i : IntentR) (nowMs : Int) (envs : Nat → AttemptEnv)
        (raced : Bool),
        (markIntentAsProcessing db i.iid).2 = true →
        shouldExpire i nowMs INTENT_EXPIRY_MINUTES = false →
        envs 1 = .normal raced →
        (purchaseTickets (markIntentAsProcessing db i.iid).1 i.event_id
            i.requested_quantity i.iid raced).2.isSuccess = true →
        (processIntent db stats i nowMs envs).stats =
          { stats with totalProcessed := stats.totalProcessed + 1 })
    ∧ (∀ (db : DB) (stats : Stats) (i : IntentR) (nowMs : Int) (envs : Nat → AttemptEnv),
        (markIntentAsProcessing db i.iid).2 = true →
        shouldExpire i nowMs INTENT_EXPIRY_MINUTES = false →
        envs 1 = .thrown → envs 2 = .thrown → envs 3 = .thrown →
        (processIntent db stats i nowMs envs).stats =
          { stats with totalFailed := stats.totalFailed + 1 })
    ∧ (statusOf procBizFail.db 1 = some .failed ∧ procBizFail.stats = ⟨0, 0⟩) := by
  refine ⟨?_, ?_, ?_, by decide⟩
  · intro db stats i nowMs envs raced hm hexp h1 hfail
    have hl :
        attemptLoop i.event_id i.requested_quantity i.iid envs MAX_RETRY_ATTEMPTS 0
            (markIntentAsProcessing db i.iid).1 =
          ((purchaseTickets (markIntentAsProcessing db i.iid).1 i.event_id
              i.requested_quantity i.iid raced).1, .bizFailed, [], 1) := by
      simp [MAX_RETRY_ATTEMPTS, attemptLoop, h1, hfail]
    simp [processIntent, hm, hexp, hl]
  · intro db stats i nowMs envs raced hm hexp h1 hsucc
    have hl :
        attemptLoop i.event_id i.requested_quantity i.iid envs MAX_RETRY_ATTEMPTS 0
            (markIntentAsProcessing db i.iid).1 =
          ((purchaseTickets (markIntentAsProcessing db i.iid).1 i.event_id
              i.requested_quantity i.iid raced).1, .doneOk, [], 1) := by
      simp [MAX_RETRY_ATTEMPTS, attemptLoop, h1, hsucc]
    simp [processIntent, hm, hexp, hl, updateProcessingStats]
  · intro db stats i nowMs envs hm hexp h1 h2 h3
    have hl :
        attemptLoop i.event_id i.requested_quantity i.iid envs MAX_RETRY_ATTEMPTS 0
            (markIntentAsProcessing db i.iid).1 =
          ((markIntentAsProcessing db i.iid).1, .exhausted, [2, 4], 3) := by
      simp [MAX_RETRY_ATTEMPTS, attemptLoop, h1, h2, h3]
    simp [processIntent, hm, hexp, hl, updateProcessingStats]

/-- C10 witness: the business-failure path evaluated on the short-inventory
fixture — the intent fails, the counters stay at zero. -/
theorem c10_stats_skip_business_failures_witness :
    (processIntent dbShort ⟨0, 0⟩ retryIntent 500 envsOk).stats = ⟨0, 0⟩ :=
  c10_stats_skip_business_failures.1 dbShort ⟨0, 0⟩ retryIntent 500 envsOk false
    (by decide) (by decide) (by decide) (by decide)

/-! ## Invariant machinery and the reachable-state claims (C2, C3, C9) -/

theorem countPidL_append (t1 t2 : List TicketR) (p : Nat) :
    countPidL (t1 ++ t2) p = countPidL t1 p + countPidL t2 p := by
  simp [countPidL, List.filter_append]

theorem countEvL_append (t1 t2 : List TicketR) (k : Nat) :
    countEvL (t1 ++ t2) k = countEvL t1 k + countEvL t2 k := by
  simp [countEvL, List.filter_append]

theorem countPidL_replicate (q eid pid p : Nat) :
    countPidL (List.replicate q (⟨eid, pid⟩ : TicketR)) p = if p = pid then q else 0 := by
  by_cases h : p = pid
  · simp [countPidL, List.filter_replicate, h]
  · simp only [countPidL, List.filter_replicate]
    simp only [beq_iff_eq]
    rw [if_neg (fun hc => h hc.symm)]
    simp [h]

theorem countEvL_replicate (q eid pid k : Nat) :
    countEvL (List.replicate q (⟨eid, pid⟩ : TicketR)) k = if k = eid then q else 0 := by
  by_cases h : k = eid
  · simp [countEvL, List.filter_replicate, h]
  · simp only [countEvL, List.filter_replicate]
    simp only [beq_iff_eq]
    rw [if_neg (fun hc => h hc.symm)]
    simp [h]

theorem countPidL_eq_zero (ts : List TicketR) (p : Nat) :
    countPidL ts p = 0 ↔ ∀ t ∈ ts, ¬ t.purchase_id = p := by
  simp [countPidL, List.length_eq_zero, List.filter_eq_nil_iff]

theorem updateEventRow_keys (l : List (Nat × EventR)) (eid : Nat) (e' : EventR) :
    (updateEventRow l eid e').map Prod.fst = l.map Prod.fst := by
  induction l with
  | nil => rfl
  | cons p ps ih =>
    by_cases h : p.1 = eid <;> simp [updateEventRow, h] at ih ⊢ <;> simpa [h] using ih

theorem lookupEvent_mem {db : DB} {eid : Nat} {e : EventR} (h : lookupEvent db eid = some e) :
    (eid, e) ∈ db.events := by
  rcases Option.map_eq_some'.mp h with ⟨pr, hfind, hsnd⟩
  have hk : (pr.1 == eid) = true := by
    have := List.find?_some (p := fun (p : Nat × EventR) => p.1 == eid) hfind
    exact this
  simp only [beq_iff_eq] at hk
  have hmem := List.mem_of_find?_eq_some hfind
  have : pr = (eid, e) := by
    rcases pr with ⟨a, b⟩
    simp only at hk hsnd
    simp [hk, hsnd]
  exact this ▸ hmem

theorem mem_key_eq {db : DB} (hn : (db.events.map Prod.fst).Nodup) {eid : Nat} {e : EventR}
    (h : lookupEvent db eid = some e) {p : Nat × EventR} (hp : p ∈ db.events) (hk : p.1 = eid) :
    p = (eid, e) :=
  List.inj_on_of_nodup_map hn hp (lookupEvent_mem h) (by simpa using hk)

theorem purchase_fail_db {db : DB} {eid q pid : Nat} {raced : Bool}
    (h : (purchaseTickets db eid q pid raced).2.isSuccess = false) :
    (purchaseTickets db eid q pid raced).1 = db := by
  unfold purchaseTickets at *
  rcases hl : lookupEvent db eid with _ | e <;> simp [hl] at h ⊢
  by_cases h1 : e.available_tickets < (q : Int)
  · simp [h1]
  · by_cases h2 : raced <;> simp [h1, h2] at h ⊢
    simp [PurchaseOutcome.isSuccess] at h

theorem purchase_success_shape {db : DB} {eid q pid : Nat} {raced : Bool}
    (h : (purchaseTickets db eid q pid raced).2.isSuccess = true) :
    ∃ e, lookupEvent db eid = some e ∧ ¬(e.available_tickets < (q : Int)) ∧ raced = false ∧
      (purchaseTickets db eid q pid raced).1 =
        { db with
            events := updateEventRow db.events eid
              { e with available_tickets := e.available_tickets - q, version := e.version + 1 },
            tickets := db.tickets ++ List.replicate q ⟨eid, pid⟩ } := by
  unfold purchaseTickets at *
  rcases hl : lookupEvent db eid with _ | e <;> simp [hl, PurchaseOutcome.isSuccess] at h ⊢
  by_cases h1 : e.available_tickets < (q : Int)
  · simp [h1, PurchaseOutcome.isSuccess] at h
  · by_cases h2 : raced <;> simp [h1, h2, PurchaseOutcome.isSuccess] at h ⊢
    omega

theorem mem_iid_unique {l : List IntentR} (hn : (l.map IntentR.iid).Nodup)
    {a b : IntentR} (ha : a ∈ l) (hb : b ∈ l) (h : a.iid = b.iid) : a = b :=
  List.inj_on_of_nodup_map hn ha hb h

theorem map_iid_eq {l : List IntentR} {f : IntentR → IntentR}
    (h : ∀ i ∈ l, (f i).iid = i.iid) :
    (l.map f).map IntentR.iid = l.map IntentR.iid := by
  rw [List.map_map]
  exact List.map_congr_left h

theorem pairwise_map_noTwoActive {l : List IntentR} {f : IntentR → IntentR}
    (hsid : ∀ i ∈ l, (f i).user_session_id = i.user_session_id)
    (heid : ∀ i ∈ l, (f i).event_id = i.event_id)
    (hact : ∀ i ∈ l, (f i).status.isActiveB = true → i.status.isActiveB = true)
    (h : l.Pairwise NoTwoActive) : (l.map f).Pairwise NoTwoActive := by
  rw [List.pairwise_map]
  refine List.Pairwise.imp_of_mem ?_ h
  intro a b ha hb hab hcon
  refine hab ⟨?_, ?_, ?_, ?_⟩
  · rw [← hsid a ha, ← hsid b hb]; exact hcon.1
  · rw [← heid a ha, ← heid b hb]; exact hcon.2.1
  · exact hact a ha hcon.2.2.1
  · exact hact b hb hcon.2.2.2

/-- Row updates that touch only the status — preserving ids, sessions and
events, and never activating a row — preserve every invariant. -/
theorem dbinv_map_intents (db : DB) (f : IntentR → IntentR) (hInv : DBInv db)
    (hid : ∀ i ∈ db.intents, (f i).iid = i.iid)
    (hsid : ∀ i ∈ db.intents, (f i).user_session_id = i.user_session_id)
    (heid : ∀ i ∈ db.intents, (f i).event_id = i.event_id)
    (hact : ∀ i ∈ db.intents, (f i).status.isActiveB = true → i.status.isActiveB = true) :
    DBInv { db with intents := db.intents.map f } := by
  refine ⟨hInv.evKeys, ?_, hInv.conserve, hInv.nonneg, hInv.ticketEventKey, ?_⟩
  · rw [map_iid_eq hid]
    exact hInv.iids
  · exact pairwise_map_noTwoActive hsid heid hact hInv.uniqueActive

theorem setStatusRow_iid (iid : Nat) (st : IntentStatus) (i : IntentR) :
    (setStatusRow iid st i).iid = i.iid := by
  unfold setStatusRow; split <;> rfl

theorem setStatusRow_sid (iid : Nat) (st : IntentStatus) (i : IntentR) :
    (setStatusRow iid st i).user_session_id = i.user_session_id := by
  unfold setStatusRow; split <;> rfl

theorem setStatusRow_eid (iid : Nat) (st : IntentStatus) (i : IntentR) :
    (setStatusRow iid st i).event_id = i.event_id := by
  unfold setStatusRow; split <;> rfl

/-- `updateIntentStatus` with a terminal (inactive) target status preserves
the invariants. -/
theorem dbinv_setStatus (db : DB) (hInv : DBInv db) (iid : Nat) (st : IntentStatus)
    (hst : st.isActiveB = false) :
    DBInv (updateIntentStatus db iid st).1 := by
  apply dbinv_map_intents db (setStatusRow iid st) hInv
  · intro i _; exact setStatusRow_iid iid st i
  · intro i _; exact setStatusRow_sid iid st i
  · intro i _; exact setStatusRow_eid iid st i
  · intro i _ hactv
    unfold setStatusRow at hactv
    split at hactv
    · rw [show ({ i with status := st } : IntentR).status = st from rfl] at hactv
      rw [hactv] at hst
      cases hst
    · exact hactv

theorem dbinv_claim (db : DB) (hInv : DBInv db) (iid : Nat) :
    DBInv (markIntentAsProcessing db iid).1 := by
  apply dbinv_map_intents db (claimRow iid) hInv
  · intro i _; unfold claimRow; split <;> rfl
  · intro i _; unfold claimRow; split <;> rfl
  · intro i _; unfold claimRow; split <;> rfl
  · intro i _ hactv
    unfold claimRow at hactv
    split at hactv
    · next hcond =>
      have : i.status = .waiting := by simpa using (Bool.and_eq_true _ _).mp hcond |>.2
      rw [this]; rfl
    · exact hactv

theorem dbinv_sweep (db : DB) (hInv : DBInv db) (cutoff : Nat) :
    DBInv (cleanupExpiredIntents db cutoff) := by
  apply dbinv_map_intents db (sweepRow cutoff) hInv
  · intro i _; unfold sweepRow; split <;> rfl
  · intro i _; unfold sweepRow; split <;> rfl
  · intro i _; unfold sweepRow; split <;> rfl
  · intro i _ hactv
    unfold sweepRow at hactv
    split at hactv
    · cases hactv
    · exact hactv

theorem dbinv_cancel (db : DB) (hInv : DBInv db) (iid : Nat) (sid : String) :
    DBInv (cancelPurchaseIntent db iid sid).1 := by
  have hset : DBInv (updateIntentStatus db iid .expired).1 :=
    dbinv_setStatus db hInv iid .expired rfl
  unfold cancelPurchaseIntent
  rcases hfind : lookupIntent db iid with _ | i
  · simp only [hfind]
    exact hInv
  · simp only [hfind]
    by_cases hs : i.user_session_id ≠ sid
    · rw [if_pos hs]
      exact hInv
    · rw [if_neg hs]
      by_cases ha : i.status.isActiveB = true
      · rw [if_neg (show ¬((!i.status.isActiveB) = true) by simp [ha])]
        split <;> exact hset
      · rw [if_pos (show (!i.status.isActiveB) = true by simp [ha])]
        exact hInv

theorem dbinv_intake (db : DB) (hInv : DBInv db) (eid : Nat) (sid : String) (q : Nat)
    (now : Int) (newId ts : Nat) : DBInv (intake db eid sid q now newId ts).1 := by
  unfold intake
  rcases hc : checkEventAvailability db eid q now with ⟨avail, oe⟩
  rcases oe with _ | e
  · simp only [hc]
    exact hInv
  · simp only [hc]
    by_cases hav : avail = true
    · rw [if_neg (show ¬((!avail) = true) by simp [hav])]
      rcases hx : getIntentBySessionAndEvent db sid eid with _ | ex
      · simp only [hx]
        by_cases hpk : db.intents.any (fun i => i.iid == newId) = true
        · rw [if_pos hpk]
          exact hInv
        · rw [if_neg hpk]
          have hfresh : ∀ i ∈ db.intents, i.iid ≠ newId := by
            intro i hi
            have := List.any_eq_true.not.mp hpk
            push_neg at this
            have h2 := this i hi
            simpa using h2
          have hnone : ∀ i ∈ db.intents,
              ¬(i.user_session_id == sid && i.event_id == eid && i.status.isActiveB) = true := by
            intro i hi
            exact List.find?_eq_none.mp hx i hi
          refine ⟨hInv.evKeys, ?_, hInv.conserve, hInv.nonneg, hInv.ticketEventKey, ?_⟩
          · rw [List.map_append]
            rw [List.nodup_append]
            refine ⟨hInv.iids, List.nodup_singleton _, ?_⟩
            intro a ha hb
            simp only [List.map_cons, List.map_nil, List.mem_singleton] at hb
            rcases List.mem_map.mp ha with ⟨i, hi, rfl⟩
            exact hfresh i hi hb
          · rw [List.pairwise_append]
            refine ⟨hInv.uniqueActive, List.pairwise_singleton _ _, ?_⟩
            intro a ha b hb
            simp only [List.mem_singleton] at hb
            intro hcon
            apply hnone a ha
            rw [hb] at hcon
            simp only at hcon
            simp [hcon.1, hcon.2.1, hcon.2.2.1]
      · simp only [hx]
        exact hInv
    · rw [if_pos (show (!avail) = true by simp [hav])]
      exact hInv

/-- One allocator transaction preserves the invariants: an unsuccessful run
leaves the database untouched, a successful run decrements the locked event
row in step with the ticket rows it inserts. -/
theorem dbinv_purchase (db : DB) (hInv : DBInv db) (eid q pid : Nat) (raced : Bool) :
    DBInv (purchaseTickets db eid q pid raced).1 := by
  by_cases hs : (purchaseTickets db eid q pid raced).2.isSuccess = true
  · rcases purchase_success_shape hs with ⟨e, hlook, hge, _, hshape⟩
    rw [hshape]
    have hcntEv : ∀ k : Nat,
        countEvL (db.tickets ++ List.replicate q ⟨eid, pid⟩) k =
          ticketCountEvent db k + (if k = eid then q else 0) := by
      intro k
      rw [countEvL_append, countEvL_replicate]
      rfl
    refine ⟨?_, hInv.iids, ?_, ?_, ?_, hInv.uniqueActive⟩
    · simpa only [updateEventRow_keys] using hInv.evKeys
    · intro p hp
      rcases List.mem_map.mp hp with ⟨p0, hp0, hg⟩
      by_cases h0 : p0.1 = eid
      · have hkey : p0 = (eid, e) := mem_key_eq hInv.evKeys hlook hp0 h0
        have hcons := hInv.conserve p0 hp0
        rw [hkey] at hcons
        simp only [h0, beq_self_eq_true, if_true] at hg
        rw [← hg]
        show (countEvL (db.tickets ++ List.replicate q ⟨eid, pid⟩) eid : Int) +
          (e.available_tickets - (q : Int)) = e.total_tickets
        rw [hcntEv eid]
        simp only [if_pos rfl]
        simp only at hcons
        push_cast
        linarith
      · simp only [beq_iff_eq, h0, if_false] at hg
        rw [← hg]
        have hcons := hInv.conserve p0 hp0
        show (countEvL (db.tickets ++ List.replicate q ⟨eid, pid⟩) p0.1 : Int) +
          p0.2.available_tickets = p0.2.total_tickets
        rw [hcntEv p0.1]
        simp only [if_neg h0]
        simpa using hcons
    · intro p hp
      rcases List.mem_map.mp hp with ⟨p0, hp0, hg⟩
      by_cases h0 : p0.1 = eid
      · simp only [h0, beq_self_eq_true, if_true] at hg
        rw [← hg]
        simp only
        omega
      · simp only [beq_iff_eq, h0, if_false] at hg
        rw [← hg]
        exact hInv.nonneg p0 hp0
    · intro t ht
      rw [updateEventRow_keys]
      rcases List.mem_append.mp ht with ht' | ht'
      · exact hInv.ticketEventKey t ht'
      · have hteq : t = ⟨eid, pid⟩ := List.eq_of_mem_replicate ht'
        rw [hteq]
        exact List.mem_map_of_mem Prod.fst (lookupEvent_mem hlook)
  · rw [purchase_fail_db (by simpa using hs)]
    exact hInv

/-- Every attempt of the retry loop mutates the database only through whole
`purchaseTickets` transactions — including the runs where a timed-out
attempt's transaction commits — so the loop preserves the invariants. -/
theorem dbinv_attemptLoop (eid q pid : Nat) (envs : Nat → AttemptEnv) :
    ∀ (fuel attempts : Nat) (db : DB), DBInv db →
      DBInv (attemptLoop eid q pid envs fuel attempts db).1 := by
  intro fuel
  induction fuel with
  | zero =>
    intro attempts db h
    exact h
  | succ n ih =>
    intro attempts db h
    rcases henv : envs (attempts + 1) with raced | _ | raced
    · simp only [attemptLoop, henv]
      split <;> exact dbinv_purchase db h eid q pid raced
    · by_cases hlt : attempts + 1 < MAX_RETRY_ATTEMPTS
      · simp only [attemptLoop, henv, hlt, if_true]
        exact ih (attempts + 1) db h
      · simp only [attemptLoop, henv, hlt, if_false]
        exact h
    · by_cases hlt : attempts + 1 < MAX_RETRY_ATTEMPTS
      · simp only [attemptLoop, henv, hlt, if_true]
        exact ih (attempts + 1) _ (dbinv_purchase db h eid q pid raced)
      · simp only [attemptLoop, henv, hlt, if_false]
        exact dbinv_purchase db h eid q pid raced

theorem dbinv_process (db : DB) (hInv : DBInv db) (i0 : IntentR)
    (nowMs : Int) (envs : Nat → AttemptEnv) (stats : Stats) :
    DBInv (processIntent db stats i0 nowMs envs).db := by
  have hdb1 : DBInv (markIntentAsProcessing db i0.iid).1 := dbinv_claim db hInv i0.iid
  unfold processIntent
  by_cases hm : (markIntentAsProcessing db i0.iid).2 = true
  · rw [if_neg (show ¬((!(markIntentAsProcessing db i0.iid).2) = true) by simp [hm])]
    by_cases hexp : shouldExpire i0 nowMs INTENT_EXPIRY_MINUTES = true
    · rw [if_pos hexp]
      exact dbinv_setStatus _ hdb1 i0.iid .expired rfl
    · rw [if_neg hexp]
      have hloop : DBInv (attemptLoop i0.event_id i0.requested_quantity i0.iid envs
          MAX_RETRY_ATTEMPTS 0 (markIntentAsProcessing db i0.iid).1).1 :=
        dbinv_attemptLoop i0.event_id i0.requested_quantity i0.iid envs
          MAX_RETRY_ATTEMPTS 0 (markIntentAsProcessing db i0.iid).1 hdb1
      rcases hr : (attemptLoop i0.event_id i0.requested_quantity i0.iid envs
          MAX_RETRY_ATTEMPTS 0 (markIntentAsProcessing db i0.iid).1).2.1 with _ | _ | _
      · simp only [hr]
        exact dbinv_setStatus _ hloop i0.iid .completed rfl
      · simp only [hr]
        exact dbinv_setStatus _ hloop i0.iid .failed rfl
      · simp only [hr]
        exact dbinv_setStatus _ hloop i0.iid .failed rfl
  · rw [if_pos (show (!(markIntentAsProcessing db i0.iid).2) = true by simp [hm])]
    exact hdb1

theorem countEvL_eq_zero (ts : List TicketR) (k : Nat) :
    countEvL ts k = 0 ↔ ∀ t ∈ ts, ¬ t.event_id = k := by
  simp [countEvL, List.length_eq_zero, List.filter_eq_nil_iff]

theorem dbinv_createEvent (db : DB) (hInv : DBInv db) (eid : Nat) (nm : String)
    (date : Int) (total : Int) (now : Int) :
    DBInv (applyOp db (.createEvent eid nm date total now)) := by
  unfold applyOp
  dsimp only
  by_cases hg : date ≤ now ∨ total < 0 ∨ db.events.any (fun p => p.1 == eid) = true
  · rw [if_pos hg]
    exact hInv
  · rw [if_neg hg]
    push_neg at hg
    have hfresh : ∀ p ∈ db.events, p.1 ≠ eid := by
      intro p hp
      have h2 := hg.2.2
      intro hc
      apply h2
      exact List.any_eq_true.mpr ⟨p, hp, by simpa using hc⟩
    have hnotick : countEvL db.tickets eid = 0 := by
      rw [countEvL_eq_zero]
      intro t ht hc
      rcases List.mem_map.mp (hInv.ticketEventKey t ht) with ⟨p, hp, hpk⟩
      exact hfresh p hp (by rw [hpk, hc])
    refine ⟨?_, hInv.iids, ?_, ?_, ?_, hInv.uniqueActive⟩
    · rw [List.map_append, List.nodup_append]
      refine ⟨hInv.evKeys, List.nodup_singleton _, ?_⟩
      intro a ha hb
      simp only [List.map_cons, List.map_nil, List.mem_singleton] at hb
      rcases List.mem_map.mp ha with ⟨p, hp, rfl⟩
      exact hfresh p hp hb
    · intro p hp
      rcases List.mem_append.mp hp with hp' | hp'
      · exact hInv.conserve p hp'
      · simp only [List.mem_singleton] at hp'
        rw [hp']
        show (countEvL db.tickets eid : Int) + total = total
        rw [hnotick]
        simp
    · intro p hp
      rcases List.mem_append.mp hp with hp' | hp'
      · exact hInv.nonneg p hp'
      · simp only [List.mem_singleton] at hp'
        rw [hp']
        show (0 : Int) ≤ total
        omega
    · intro t ht
      rw [List.map_append]
      exact List.mem_append_left _ (hInv.ticketEventKey t ht)

theorem dbinv_applyOp (db : DB) (hInv : DBInv db) (op : Op) : DBInv (applyOp db op) := by
  cases op with
  | createEvent eid nm date total now => exact dbinv_createEvent db hInv eid nm date total now
  | intakeOp eid sid q now newId ts =>
    unfold applyOp
    dsimp only
    by_cases hv : q < 1 ∨ 10 < q ∨ sid.length < 1 ∨ 255 < sid.length
    · rw [if_pos hv]
      exact hInv
    · rw [if_neg hv]
      exact dbinv_intake db hInv eid sid q now newId ts
  | processOp iid nowMs envs =>
    unfold applyOp
    dsimp only
    rcases hfind : lookupIntent db iid with _ | i0
    · simp only [hfind]
      exact hInv
    · simp only [hfind]
      exact dbinv_process db hInv i0 nowMs envs ⟨0, 0⟩
  | cancelOp iid sid => exact dbinv_cancel db hInv iid sid
  | sweepOp cutoff => exact dbinv_sweep db hInv cutoff

theorem dbinv_empty : DBInv emptyDB := by
  refine ⟨?_, ?_, ?_, ?_, ?_, ?_⟩ <;> simp [emptyDB]

theorem dbinv_applyOps (db : DB) (hInv : DBInv db) (ops : List Op) :
    DBInv (applyOps db ops) := by
  induction ops generalizing db with
  | nil => exact hInv
  | cons op rest ih => exact ih _ (dbinv_applyOp db hInv op)

theorem dbinv_reachable (ops : List Op) : DBInv (applyOps emptyDB ops) :=
  dbinv_applyOps emptyDB dbinv_empty ops

theorem pairwise_filter_length_le_one {α : Type} (p : α → Bool) (l : List α)
    (R : α → α → Prop) (h : l.Pairwise R)
    (hcon : ∀ a b, p a = true → p b = true → R a b → False) :
    (l.filter p).length ≤ 1 := by
  induction h with
  | nil => simp
  | @cons x xs hhead _ ih =>
    by_cases hx : p x = true
    · rw [List.filter_cons_of_pos hx]
      have hnil : xs.filter p = [] := by
        rw [List.filter_eq_nil_iff]
        intro y hy hpy
        exact hcon x y hx hpy (hhead y hy)
      simp [hnil]
    · rw [List.filter_cons_of_neg (by simpa using hx)]
      exact ih

/-- C2: in every sequentially reachable state, each event's issued tickets
plus its `available_tickets` equal its `total_tickets` and `available_tickets`
is never negative; and the allocator is atomic — an unsuccessful run leaves
the database untouched, a successful run commits the guarded decrement
together with exactly `quantity` ticket rows. -/
theorem c2_inventory_conservation_and_atomic_allocation :
    (∀ (ops : List Op), ∀ p ∈ (applyOps emptyDB ops).events,
        (ticketCountEvent (applyOps emptyDB ops) p.1 : Int) + p.2.available_tickets
            = p.2.total_tickets
        ∧ 0 ≤ p.2.available_tickets)
    ∧ (∀ (db : DB) (eid q pid : Nat) (raced : Bool),
        ((purchaseTickets db eid q pid raced).2.isSuccess = false →
          (purchaseTickets db eid q pid raced).1 = db)
        ∧ ((purchaseTickets db eid q pid raced).2.isSuccess = true →
          ∃ e, lookupEvent db eid = some e ∧ (q : Int) ≤ e.available_tickets ∧
            (purchaseTickets db eid q pid raced).1 =
              { db with
                  events := updateEventRow db.events eid
                    { e with
                      available_tickets := e.available_tickets - q
                      version := e.version + 1 },
                  tickets := db.tickets ++ List.replicate q ⟨eid, pid⟩ })) := by
  constructor
  · intro ops p hp
    have hInv := dbinv_reachable ops
    exact ⟨hInv.conserve p hp, hInv.nonneg p hp⟩
  · intro db eid q pid raced
    refine ⟨fun h => purchase_fail_db h, fun h => ?_⟩
    rcases purchase_success_shape h with ⟨e, h1, h2, _, h4⟩
    exact ⟨e, h1, by omega, h4⟩

/-- C2 witness: the conservation equation evaluated after the happy trace
(5 total = 2 issued + 3 available). -/
theorem c2_inventory_conservation_witness :
    (ticketCountEvent (applyOps emptyDB opsHappy) 1 : Int) + 3 = 5 ∧ (0 : Int) ≤ 3 :=
  c2_inventory_conservation_and_atomic_allocation.1 opsHappy (1, ⟨"E", 1000000, 5, 3, 2⟩) (by decide)

/-- C3 (code bug): the exactly-`quantity` ticket contract fails.  In the
`opsDouble` trace the intent asks for 2 tickets; its first allocator attempt
commits, but the processing timeout fires first — `Promise.race` does not
cancel the in-flight transaction — so `processIntent` observes a throw and
retries after backoff, and the second attempt commits again.  The intent ends
COMPLETED owning 4 ticket rows with `purchase_id = 1`, twice its quantity,
with the inventory decremented twice (5 − 2 − 2 = 1); no constraint on
`tickets.purchase_id` blocks the second insert.  Inventory conservation
still holds, each commit being one consistent transaction. -/
theorem c3_timeout_retry_double_allocation :
    statusOf (applyOps emptyDB opsDouble) 1 = some .completed
    ∧ (lookupIntent (applyOps emptyDB opsDouble) 1).map IntentR.requested_quantity = some 2
    ∧ countPid (applyOps emptyDB opsDouble) 1 = 4
    ∧ (lookupEvent (applyOps emptyDB opsDouble) 1).map EventR.available_tickets = some 1 := by
  decide

/-- C9: intake is idempotent — when the availability fast path passes and an
active intent already exists for `(session, event)`, intake returns that
intent's id and changes nothing — and in every sequentially reachable state
at most one active (WAITING or PROCESSING) intent exists per
`(session, event)`. -/
theorem c9_intake_idempotent_and_unique_active :
    (∀ (db : DB) (eid : Nat) (sid : String) (q : Nat) (now : Int) (newId ts : Nat)
        (e : EventR) (ex : IntentR),
        lookupEvent db eid = some e →
        (hasAvailableTickets e q && decide (now < e.date)) = true →
        getIntentBySessionAndEvent db sid eid = some ex →
        intake db eid sid q now newId ts = (db, .existing ex.iid))
    ∧ (∀ (ops : List Op) (sid : String) (eid : Nat),
        ((applyOps emptyDB ops).intents.filter (activeFor sid eid)).length ≤ 1) := by
  constructor
  · intro db eid sid q now newId ts e ex hle hav hex
    unfold intake checkEventAvailability
    simp only [hle]
    rw [if_neg (by simp [hav])]
    simp only [hex]
  · intro ops sid eid
    have hInv := dbinv_reachable ops
    apply pairwise_filter_length_le_one _ _ NoTwoActive hInv.uniqueActive
    intro a b hpa hpb hR
    simp only [activeFor, Bool.and_eq_true, beq_iff_eq] at hpa hpb
    exact hR ⟨hpa.1.1.trans hpb.1.1.symm, hpa.1.2.trans hpb.1.2.symm, hpa.2, hpb.2⟩

/-- C9 witness: re-submitting over the active fixture intent returns the
existing id 1 and leaves the database unchanged. -/
theorem c9_intake_idempotent_and_unique_active_witness :
    intake dbActive 1 "s" 2 0 99 5 = (dbActive, .existing 1) :=
  c9_intake_idempotent_and_unique_active.1 dbActive 1 "s" 2 0 99 5 ⟨"E", 1000000, 5, 5, 1⟩ ⟨1, 1, "s", 2, 100000, .waiting⟩
    (by decide) (by decide) (by decide)
